import Mathlib

/-!
Shallow embedding of the `yaaarc` abstract-algebra crate.

The crate defines capability traits (`BinaryOperator`, the group-like
hierarchy, the ring-like hierarchy) and exercises them in doc examples on
three reference instances:

* `Z` — a wrapper around `isize`, used in the `Quasigroup` and
  `AbelianGroup` doc examples in `grouplike.rs` (its `op` body is
  `self.0 - rhs.0`, its `inverse` is `-self.0`, its `IDENTITY` is `Z(0)`);
* `ZeroRing` — the one-element ring of the `Ring` doc example in
  `ringlike.rs`;
* `Mod4` — the integers modulo 4 of the `CommutativeRing` doc example in
  `ringlike.rs` (a wrapper around `u8`).

Rust traits become Lean structures whose fields are the required
operations and constants; trait default methods (`Ring::inverse_add`,
`Ring::is_unit`) become plain functions over those structures.  `isize`
is modelled as `Int` and `u8` as `Nat`; on every value appearing in the
claims the Rust arithmetic stays far from the representation bounds, so
no wrap-around or overflow-panic correction is needed on those inputs.
`Option` models Rust's `Option`.
-/

/-- The `Z(isize)` struct of the `Quasigroup` and `AbelianGroup` doc
examples in `grouplike.rs`. -/
structure Z where
  val : Int
deriving DecidableEq

/-- `BinaryOperator<()>::op` for `Z`: `Z(self.0 - rhs.0)` (the body is
subtraction in both doc examples). -/
def Z.op (a b : Z) : Z := Z.mk (a.val - b.val)

/-- `BinaryOperator<()>::op_assign` for `Z`: `self.0 -= rhs.0`, modelled
as the value of the receiver after the call. -/
def Z.op_assign (a b : Z) : Z := Z.mk (a.val - b.val)

/-- `Quasigroup<()>::inverse` for `Z`: `Z(-self.0)`. -/
def Z.inverse (a : Z) : Z := Z.mk (-a.val)

/-- `UnitalMagma<()>::IDENTITY` for `Z`: `Z(0)`. -/
def Z.IDENTITY : Z := Z.mk 0

/-- The `Mod4(u8)` struct of the `CommutativeRing` doc example in
`ringlike.rs`. -/
structure Mod4 where
  val : Nat
deriving DecidableEq

/-- The derived `PartialEq` of `Mod4`: field-wise equality. -/
def Mod4.eqDerived (a b : Mod4) : Bool := a.val == b.val

/-- `BinaryOperator<Plus>::op` for `Mod4`: `Mod4((self.0 + rhs.0) % 4)`. -/
def Mod4.opPlus (a b : Mod4) : Mod4 := Mod4.mk ((a.val + b.val) % 4)

/-- `BinaryOperator<Plus>::op_assign` for `Mod4`: first `self.0 += rhs.0`,
then `self.0 %= 4`; modelled as the value of the receiver after the two
statements. -/
def Mod4.opAssignPlus (a b : Mod4) : Mod4 :=
  let v := a.val + b.val
  Mod4.mk (v % 4)

/-- `BinaryOperator<Times>::op` for `Mod4`: `Mod4((self.0 * rhs.0) % 4)`. -/
def Mod4.opTimes (a b : Mod4) : Mod4 := Mod4.mk ((a.val * b.val) % 4)

/-- `BinaryOperator<Times>::op_assign` for `Mod4`: first `self.0 *= rhs.0`,
then `self.0 %= 4`. -/
def Mod4.opAssignTimes (a b : Mod4) : Mod4 :=
  let v := a.val * b.val
  Mod4.mk (v % 4)

/-- `UnitalMagma<Plus>::IDENTITY` for `Mod4`: `Mod4(0)`. -/
def Mod4.identityPlus : Mod4 := Mod4.mk 0

/-- `UnitalMagma<Times>::IDENTITY` for `Mod4`: `Mod4(1)`. -/
def Mod4.identityTimes : Mod4 := Mod4.mk 1

/-- `Quasigroup<Plus>::inverse` for `Mod4`: `Mod4(4 - self.0)`. -/
def Mod4.inversePlus (a : Mod4) : Mod4 := Mod4.mk (4 - a.val)

/-- `Ring::ZERO` for `Mod4`: `Mod4(0)`. -/
def Mod4.ZERO : Mod4 := Mod4.mk 0

/-- `Ring::ONE` for `Mod4`: `Mod4(1)`. -/
def Mod4.ONE : Mod4 := Mod4.mk 1

/-- `Ring::left_inverse_mul` for `Mod4`: `match self.0 {1 => Some(Mod4(1)),
3 => Some(Mod4(3)), _ => None}`. -/
def Mod4.left_inverse_mul (a : Mod4) : Option Mod4 :=
  match a.val with
  | 1 => some (Mod4.mk 1)
  | 3 => some (Mod4.mk 3)
  | _ => none

/-- `Ring::right_inverse_mul` for `Mod4`: `self.left_inverse_mul()`. -/
def Mod4.right_inverse_mul (a : Mod4) : Option Mod4 := a.left_inverse_mul

/-- `Ring::inverse_mul` for `Mod4`: `self.left_inverse_mul()`. -/
def Mod4.inverse_mul (a : Mod4) : Option Mod4 := a.left_inverse_mul

/-- The `ZeroRing` struct of the `Ring` doc example in `ringlike.rs`: one
constructor, isomorphic to the unit type. -/
inductive ZeroRing where
  | mk : ZeroRing
deriving DecidableEq

/-- `BinaryOperator<Plus>::op` for `ZeroRing`: returns `Self`. -/
def ZeroRing.opPlus (_ _ : ZeroRing) : ZeroRing := ZeroRing.mk

/-- `BinaryOperator<Times>::op` for `ZeroRing`: returns `Self`. -/
def ZeroRing.opTimes (_ _ : ZeroRing) : ZeroRing := ZeroRing.mk

/-- `UnitalMagma<Plus>::IDENTITY` and `UnitalMagma<Times>::IDENTITY` for
`ZeroRing`: `Self`. -/
def ZeroRing.identity : ZeroRing := ZeroRing.mk

/-- `Quasigroup<Plus>::inverse` for `ZeroRing`: `Self`. -/
def ZeroRing.inversePlus (_ : ZeroRing) : ZeroRing := ZeroRing.mk

/-- `Ring::ZERO` for `ZeroRing`: `Self`. -/
def ZeroRing.ZERO : ZeroRing := ZeroRing.mk

/-- `Ring::ONE` for `ZeroRing`: `Self`. -/
def ZeroRing.ONE : ZeroRing := ZeroRing.mk

/-- `Ring::left_inverse_mul` for `ZeroRing`: `Some(ZeroRing)`. -/
def ZeroRing.left_inverse_mul (_ : ZeroRing) : Option ZeroRing :=
  some ZeroRing.mk

/-- `Ring::right_inverse_mul` for `ZeroRing`: `Some(ZeroRing)`. -/
def ZeroRing.right_inverse_mul (_ : ZeroRing) : Option ZeroRing :=
  some ZeroRing.mk

/-- `Ring::inverse_mul` for `ZeroRing`: `Some(ZeroRing)`. -/
def ZeroRing.inverse_mul (_ : ZeroRing) : Option ZeroRing :=
  some ZeroRing.mk

/-- The shape of the `Ring` trait (`ringlike.rs`): a conforming type must
supply `AbelianGroup<Plus>` (binary op, identity, total additive inverse),
`Monoid<Times>` (binary op, identity), the constants `ZERO` and `ONE`, and
the three partial multiplicative-inverse queries, each returning
`Option<Self>`. -/
structure RingOps (α : Type) where
  opPlus : α → α → α
  opAssignPlus : α → α → α
  identityPlus : α
  inversePlus : α → α
  opTimes : α → α → α
  opAssignTimes : α → α → α
  identityTimes : α
  ZERO : α
  ONE : α
  left_inverse_mul : α → Option α
  right_inverse_mul : α → Option α
  inverse_mul : α → Option α

/-- Default method `Ring::inverse_add`: calls
`<Self as Quasigroup<Plus>>::inverse(&self)`. -/
def RingOps.inverse_add {α : Type} (R : RingOps α) (x : α) : α :=
  R.inversePlus x

/-- Default method `Ring::is_unit`: `self.inverse_mul().is_some()`. -/
def RingOps.is_unit {α : Type} (R : RingOps α) (x : α) : Bool :=
  (R.inverse_mul x).isSome

/-- The `Ring` conformance of `Mod4` assembled from its supplied
operations (the doc example overrides none of the default methods). -/
def Mod4.ringOps : RingOps Mod4 where
  opPlus := Mod4.opPlus
  opAssignPlus := Mod4.opAssignPlus
  identityPlus := Mod4.identityPlus
  inversePlus := Mod4.inversePlus
  opTimes := Mod4.opTimes
  opAssignTimes := Mod4.opAssignTimes
  identityTimes := Mod4.identityTimes
  ZERO := Mod4.ZERO
  ONE := Mod4.ONE
  left_inverse_mul := Mod4.left_inverse_mul
  right_inverse_mul := Mod4.right_inverse_mul
  inverse_mul := Mod4.inverse_mul

/-- The `Ring` conformance of `ZeroRing` assembled from its supplied
operations. -/
def ZeroRing.ringOps : RingOps ZeroRing where
  opPlus := ZeroRing.opPlus
  opAssignPlus := ZeroRing.opPlus
  identityPlus := ZeroRing.identity
  inversePlus := ZeroRing.inversePlus
  opTimes := ZeroRing.opTimes
  opAssignTimes := ZeroRing.opTimes
  identityTimes := ZeroRing.identity
  ZERO := ZeroRing.ZERO
  ONE := ZeroRing.ONE
  left_inverse_mul := ZeroRing.left_inverse_mul
  right_inverse_mul := ZeroRing.right_inverse_mul
  inverse_mul := ZeroRing.inverse_mul

/-- The shape of the `DivisionRing` trait (`ringlike.rs`): `Ring` plus
`Group<Times>`.  `Group<Times>` requires `Quasigroup<Times>`, whose
`inverse` is a **total** function returning a value of the type — there is
no `Option` in its signature — so a conforming type must return some
element even on `ZERO`.  `DivisionRing` additionally exposes `div_right`
and `div_left`. -/
structure DivisionRingOps (α : Type) extends RingOps α where
  inverseTimes : α → α
  div_right : α → α → α
  div_left : α → α → α

/-- C2: For the `Mod4` reference `Ring` instance, `ZERO` is `Mod4(0)` and
`ONE` is `Mod4(1)`; `left_inverse_mul(2)` is `None`; `left_inverse_mul(3)`
is `Some(Mod4(3))`; `is_unit(1)` is `true` and `is_unit(2)` is `false`. -/
theorem C2_mod4_ring_scenario :
    Mod4.ringOps.ZERO = Mod4.mk 0 ∧
    Mod4.ringOps.ONE = Mod4.mk 1 ∧
    Mod4.ringOps.left_inverse_mul (Mod4.mk 2) = none ∧
    Mod4.ringOps.left_inverse_mul (Mod4.mk 3) = some (Mod4.mk 3) ∧
    Mod4.ringOps.is_unit (Mod4.mk 1) = true ∧
    Mod4.ringOps.is_unit (Mod4.mk 2) = false := by
  decide

/-- C1: The claim asserts that for the `Z` doc-example instance every `x`
satisfies `x op inverse(x) = inverse(x) op x = Z(0)`, with `3` combined
with `−3` yielding `0`.  The code's `op` body is subtraction
(`self.0 - rhs.0`), although the surrounding doc comment says "the
integers with addition form an abelian group": at `x = Z(3)` the code
computes `3 op inverse(3) = 3 - (-3) = 6 ≠ 0` and
`inverse(3) op 3 = -3 - 3 = -6 ≠ 0`, so the claimed law fails on the code;
the code contradicts its own documentation.  (The `inverse(5) = Z(-5)`
part does hold.) -/
theorem C1_z_inverse_law_fails_on_code :
    Z.op (Z.mk 3) (Z.inverse (Z.mk 3)) = Z.mk 6 ∧
    Z.op (Z.mk 3) (Z.inverse (Z.mk 3)) ≠ Z.IDENTITY ∧
    Z.op (Z.inverse (Z.mk 3)) (Z.mk 3) = Z.mk (-6) ∧
    Z.op (Z.inverse (Z.mk 3)) (Z.mk 3) ≠ Z.IDENTITY ∧
    Z.inverse (Z.mk 5) = Z.mk (-5) := by
  refine ⟨rfl, ?_, rfl, ?_, rfl⟩ <;> decide

/-- C3: For every type conforming to `Ring` and every element `x`,
`is_unit(x)` returns `true` if and only if `inverse_mul(x)` returns a
present value (`Some`). -/
theorem C3_is_unit_iff_inverse_mul_present {α : Type} (R : RingOps α)
    (x : α) :
    R.is_unit x = true ↔ ∃ v, R.inverse_mul x = some v := by
  simp [RingOps.is_unit, Option.isSome_iff_exists]

/-- C4: For the reference `Ring` instances `Mod4` and `ZeroRing` and every
element `x`, if `left_inverse_mul(x)` and `right_inverse_mul(x)` are both
present then their values are equal and also equal `inverse_mul(x)`'s
result. -/
theorem C4_one_sided_inverses_agree :
    (∀ x : Mod4, ∀ l r : Mod4,
      Mod4.ringOps.left_inverse_mul x = some l →
      Mod4.ringOps.right_inverse_mul x = some r →
      l = r ∧ Mod4.ringOps.inverse_mul x = some l) ∧
    (∀ x : ZeroRing, ∀ l r : ZeroRing,
      ZeroRing.ringOps.left_inverse_mul x = some l →
      ZeroRing.ringOps.right_inverse_mul x = some r →
      l = r ∧ ZeroRing.ringOps.inverse_mul x = some l) := by
  constructor
  · intro x l r hl hr
    have hr' : Mod4.ringOps.left_inverse_mul x = some r := hr
    rw [hl] at hr'
    refine ⟨Option.some.inj hr', ?_⟩
    exact hl
  · intro x l r hl hr
    have hr' : ZeroRing.ringOps.left_inverse_mul x = some r := hr
    rw [hl] at hr'
    refine ⟨Option.some.inj hr', ?_⟩
    exact hl

/-- Witness for C4 at the concrete input `Mod4(3)`, whose left and right
inverses are both `Some(Mod4(3))`. -/
theorem C4_one_sided_inverses_agree_witness :
    Mod4.mk 3 = Mod4.mk 3 ∧
    Mod4.ringOps.inverse_mul (Mod4.mk 3) = some (Mod4.mk 3) :=
  C4_one_sided_inverses_agree.1 (Mod4.mk 3) (Mod4.mk 3) (Mod4.mk 3)
    rfl rfl

/-- C5: Multiplicative inversion is partial and safe on the reference
instances: `left_inverse_mul`, `right_inverse_mul` and `inverse_mul` all
return an explicit `Option` value on every element of the value space —
`none` exactly when the element is not a unit (e.g. every `Mod4` value
whose representative is neither `1` nor `3`), `some` on units, and never
an abnormal termination (the embedded functions are total). -/
theorem C5_partial_inverse_mul_safe :
    (∀ x : Mod4,
      (Mod4.ringOps.inverse_mul x = none ∨
        ∃ v, Mod4.ringOps.inverse_mul x = some v) ∧
      (Mod4.ringOps.is_unit x = false →
        Mod4.ringOps.left_inverse_mul x = none ∧
        Mod4.ringOps.right_inverse_mul x = none ∧
        Mod4.ringOps.inverse_mul x = none) ∧
      (Mod4.ringOps.is_unit x = true →
        ∃ v, Mod4.ringOps.inverse_mul x = some v)) ∧
    (∀ x : ZeroRing,
      ∃ v, ZeroRing.ringOps.inverse_mul x = some v ∧
        ZeroRing.ringOps.left_inverse_mul x = some v ∧
        ZeroRing.ringOps.right_inverse_mul x = some v) := by
  constructor
  · intro x
    refine ⟨?_, ?_, ?_⟩
    · rcases h : Mod4.ringOps.inverse_mul x with _ | v
      · exact Or.inl rfl
      · exact Or.inr ⟨v, rfl⟩
    · intro hu
      have h : (Mod4.ringOps.inverse_mul x).isSome = false := hu
      have hnone : Mod4.ringOps.inverse_mul x = none :=
        Option.not_isSome_iff_eq_none.mp (by simp [h])
      have hleft : Mod4.ringOps.left_inverse_mul x = none := hnone
      exact ⟨hleft, hleft, hnone⟩
    · intro hu
      have h : (Mod4.ringOps.inverse_mul x).isSome = true := hu
      exact Option.isSome_iff_exists.mp h
  · intro x
    exact ⟨ZeroRing.mk, rfl, rfl, rfl⟩

/-- Witness for C5 at the concrete non-unit `Mod4(2)` and the concrete
unit `Mod4(3)`. -/
theorem C5_partial_inverse_mul_safe_witness :
    (Mod4.ringOps.left_inverse_mul (Mod4.mk 2) = none ∧
      Mod4.ringOps.right_inverse_mul (Mod4.mk 2) = none ∧
      Mod4.ringOps.inverse_mul (Mod4.mk 2) = none) ∧
    ∃ v, Mod4.ringOps.inverse_mul (Mod4.mk 3) = some v :=
  ⟨(C5_partial_inverse_mul_safe.1 (Mod4.mk 2)).2.1 rfl,
    (C5_partial_inverse_mul_safe.1 (Mod4.mk 3)).2.2 rfl⟩

/-- C6: For the `Mod4` reference instance, multiplication distributes over
addition on both sides for all operands in the representable range
`{0,1,2,3}`, where `+` and `·` are the embedded mod-4 operations. -/
theorem C6_mod4_distributivity :
    ∀ i j k : Fin 4,
      Mod4.opTimes (Mod4.mk i.val)
          (Mod4.opPlus (Mod4.mk j.val) (Mod4.mk k.val)) =
        Mod4.opPlus (Mod4.opTimes (Mod4.mk i.val) (Mod4.mk j.val))
          (Mod4.opTimes (Mod4.mk i.val) (Mod4.mk k.val)) ∧
      Mod4.opTimes (Mod4.opPlus (Mod4.mk j.val) (Mod4.mk k.val))
          (Mod4.mk i.val) =
        Mod4.opPlus (Mod4.opTimes (Mod4.mk j.val) (Mod4.mk i.val))
          (Mod4.opTimes (Mod4.mk k.val) (Mod4.mk i.val)) := by
  decide

/-- C7: For every type conforming to `Ring` and every element `x`,
`inverse_add(x)` equals the additive `Quasigroup`'s `inverse` applied to
`x` — the default method body delegates to
`<Self as Quasigroup<Plus>>::inverse`. -/
theorem C7_inverse_add_delegates {α : Type} (R : RingOps α) (x : α) :
    R.inverse_add x = R.inversePlus x := rfl

/-- C8: For the `Mod4` reference instance under both the additive and the
multiplicative tag, with operands in the representable range `{0,1,2,3}`,
the pure operator and the in-place operator agree: `x.op(y)` equals the
value of `x` after `x.op_assign(y)`. -/
theorem C8_op_assign_agrees_with_op :
    ∀ i j : Fin 4,
      Mod4.opPlus (Mod4.mk i.val) (Mod4.mk j.val) =
        Mod4.opAssignPlus (Mod4.mk i.val) (Mod4.mk j.val) ∧
      Mod4.opTimes (Mod4.mk i.val) (Mod4.mk j.val) =
        Mod4.opAssignTimes (Mod4.mk i.val) (Mod4.mk j.val) := by
  decide

/-- C9: Every type conforming to `DivisionRing` must supply, through
`Group<Times>`'s `Quasigroup` requirement, a total multiplicative inverse
returning a plain value of the type on every element — including `ZERO`:
the required operation's result type offers no present/absent escape. -/
theorem C9_division_ring_inverse_total {α : Type}
    (D : DivisionRingOps α) :
    (∀ x : α, ∃ v : α, D.inverseTimes x = v) ∧
    ∃ v : α, D.inverseTimes D.toRingOps.ZERO = v :=
  ⟨fun x => ⟨D.inverseTimes x, rfl⟩,
    ⟨D.inverseTimes D.toRingOps.ZERO, rfl⟩⟩

/-- C10: For the `Mod4` reference instance, the additive inverse computes
`Mod4(4 - x)` (shown on every representative `x ≤ 4`); in particular the
inverse of `Mod4(0)` is `Mod4(4)`, which lies outside the canonical range
`{0,1,2,3}` and is not equal under the derived field-wise equality to the
additive identity `Mod4(0)`. -/
theorem C10_mod4_inverse_of_zero_noncanonical :
    (∀ i : Fin 5, Mod4.inversePlus (Mod4.mk i.val) = Mod4.mk (4 - i.val)) ∧
    Mod4.inversePlus (Mod4.mk 0) = Mod4.mk 4 ∧
    ¬ (Mod4.inversePlus (Mod4.mk 0)).val < 4 ∧
    Mod4.eqDerived (Mod4.inversePlus (Mod4.mk 0)) Mod4.identityPlus =
      false := by
  refine ⟨by decide, rfl, by decide, by decide⟩
